import Mathlib

/-!
A verification development for the Arlington hockey-roster website generator
(`generate_website.py`).  The data-processing core of the script is embedded
shallowly: pandas DataFrames become `List Rec`, per-row operations become list
maps/filters, `DataFrame.drop_duplicates` becomes a first-occurrence
deduplication, Python's stable `sorted` becomes insertion sort, and the
`sorted(..., key=season_key)` call — whose key function can return both `int`
and `str`, making CPython raise `TypeError` when the two meet — becomes a
monadic sort in `Except` that errors exactly when keys of the two kinds are
compared.  Character-level string code (`re.search` in `normalize_season`,
`str.replace`, the filename sanitizers) is embedded over `List Char`, with the
ASCII fragment of Python's Unicode character classes (inputs of this dataset
are ASCII).  Underscore digit-grouping of Python's `int()` literal syntax is
not modelled.
-/

deriving instance DecidableEq for Except

namespace Arlington

/-- A roster record: one row of an `ArlingtonIce-*.csv` file, with the five
columns produced by `fetch_team_roster`. -/
structure Rec where
  team_id : Int
  season : String
  team_name : String
  player_name : String
  fetched_at : String
deriving DecidableEq, Repr

/-- ASCII decimal digit, the ASCII fragment of Python's `\d`. -/
def isDigitChar (c : Char) : Bool :=
  '0' ≤ c && c ≤ '9'

/-- The ASCII fragment of the regex class `[\s/\\-]` used as the separator in
`normalize_season`. -/
def isSepChar (c : Char) : Bool :=
  c = ' ' || c = '\t' || c = '\n' || c = '\r' || c = '\x0b' || c = '\x0c' ||
    c = '/' || c = '\\' || c = '-'

/-- Numeric value of a digit string (most significant digit first). -/
def digitsToNat (ds : List Char) : Nat :=
  ds.foldl (fun n c => 10 * n + (c.toNat - 48)) 0

/-- One attempt of `re.search(r'(\d{2,4})[\s/\\-]+(\d{2,4})', s)` anchored at
the start of `cs`: the maximal digit run must have length 2–4 (a longer run
leaves a digit where the separator class is required, so every backtracking
choice fails), then a nonempty separator run, then at least two digits of
which the greedy second group captures at most four. -/
def matchYearPairAt (cs : List Char) : Option (List Char × List Char) :=
  let d1 := cs.takeWhile isDigitChar
  if 2 ≤ d1.length ∧ d1.length ≤ 4 then
    let rest1 := cs.dropWhile isDigitChar
    let seps := rest1.takeWhile isSepChar
    if 1 ≤ seps.length then
      let d2 := (rest1.dropWhile isSepChar).takeWhile isDigitChar
      if 2 ≤ d2.length then some (d1, d2.take 4) else none
    else none
  else none

/-- `re.search` semantics: try `matchYearPairAt` at each start position from
the left and take the first success. -/
def searchYearPair : List Char → Option (List Char × List Char)
  | [] => none
  | c :: cs =>
    match matchYearPairAt (c :: cs) with
    | some p => some p
    | none => searchYearPair cs

/-- Expansion of a 2-digit year by the pivot-50 rule
(`'20'+y if int(y) < 50 else '19'+y`); longer captures pass through. -/
def expandYear (y : List Char) : List Char :=
  if y.length = 2 then
    if digitsToNat y < 50 then '2' :: '0' :: y else '1' :: '9' :: y
  else y

/-- `normalize_season` from `read_all_csvs`: on a regex match return
`f"{y1}/{y2}"` with 2-digit years expanded, otherwise return the input
unchanged. -/
def normalize_season (s : String) : String :=
  match searchYearPair s.data with
  | some (y1, y2) => String.mk (expandYear y1 ++ '/' :: expandYear y2)
  | none => s

/-- Season normalization applied to a row
(`df['season'].astype(str).apply(normalize_season)`). -/
def normRec (r : Rec) : Rec :=
  { r with season := normalize_season r.season }

/-- First-occurrence deduplication with an accumulator of already-seen
elements: the semantics of pandas `DataFrame.drop_duplicates()`. -/
def dropDupAux {α : Type} [DecidableEq α] (seen : List α) : List α → List α
  | [] => []
  | x :: xs => if x ∈ seen then dropDupAux seen xs else x :: dropDupAux (x :: seen) xs

/-- `DataFrame.drop_duplicates()`: keep the first occurrence of each row. -/
def dropDuplicates {α : Type} [DecidableEq α] (l : List α) : List α :=
  dropDupAux [] l

/-- `read_all_csvs`, data part: the rows of all CSV files are given as one
list (in file-read order); each row's season is normalized, then exact
duplicate rows (all five columns) are dropped keeping first occurrences.
File globbing, CSV parsing and printing are I/O and are stripped. -/
def read_all_csvs (rows : List Rec) : List Rec :=
  dropDuplicates (rows.map normRec)

/-- Python's `<` on strings restricted to its code-point comparison (applied
to the character lists of the two strings): lexicographic by `Char.toNat`. -/
def pyStrLtL : List Char → List Char → Bool
  | _, [] => false
  | [], _ :: _ => true
  | a :: as, b :: bs =>
    if a.toNat < b.toNat then true
    else if b.toNat < a.toNat then false
    else pyStrLtL as bs

/-- Python's `s < t` for strings. -/
def pyStrLt (s t : String) : Bool :=
  pyStrLtL s.data t.data

/-- The "may come first in a Python ascending sort" relation on strings:
`a` need not be moved after `b` exactly when `¬ (b < a)`. -/
def pyLeStr (a b : String) : Prop :=
  pyStrLt b a = false

instance : DecidableRel pyLeStr := fun a b =>
  inferInstanceAs (Decidable (_ = _))

/-- `get_unique_players`: `sorted(df['player_name'].unique())`. -/
def get_unique_players (df : List Rec) : List String :=
  List.insertionSort pyLeStr (dropDuplicates (df.map Rec.player_name))

/-- The projection `df[['team_id', 'team_name', 'season']]` of a row, i.e. one
entry of the team list built by `get_unique_teams`. -/
structure TeamEntry where
  team_id : Int
  team_name : String
  season : String
deriving DecidableEq, Repr

/-- The team-list entry of a record. -/
def recTeamEntry (r : Rec) : TeamEntry :=
  { team_id := r.team_id, team_name := r.team_name, season := r.season }

/-- The sort key comparison `lambda x: (x['season'], x['team_name'])` of
`get_unique_teams`: Python tuple comparison, lexicographic on the pair of
plain strings. -/
def teamLe (a b : TeamEntry) : Prop :=
  pyStrLt a.season b.season = true ∨ (a.season = b.season ∧ pyLeStr a.team_name b.team_name)

instance : DecidableRel teamLe := fun a b =>
  inferInstanceAs (Decidable (_ ∨ _))

/-- `get_unique_teams`: project to the three team columns, drop duplicate
triples keeping first occurrences, then stable-sort by `(season, team_name)`
as plain strings. -/
def get_unique_teams (df : List Rec) : List TeamEntry :=
  List.insertionSort teamLe (dropDuplicates (df.map recTeamEntry))

/-- The render model of a team page (`get_team_data`'s returned dict). -/
structure TeamData where
  team_id : Int
  team_name : String
  season : String
  players : List String
deriving DecidableEq, Repr

/-- `get_team_data`: filter to the `(team_id, season)` pair; `None` when
empty; `team_name` is the first matching row's value; `players` is
`sorted(team_data['player_name'].unique())`. -/
def get_team_data (df : List Rec) (team_id : Int) (season : String) : Option TeamData :=
  let team_data := df.filter (fun r => r.team_id = team_id ∧ r.season = season)
  match team_data with
  | [] => none
  | r :: _ =>
    some { team_id := team_id, team_name := r.team_name, season := season,
           players := List.insertionSort pyLeStr
             (dropDuplicates (team_data.map Rec.player_name)) }

/-- One membership entry of `get_player_data`'s `teams_info`. -/
structure Membership where
  team_id : Int
  season : String
  team_name : String
  teammates : List String
deriving DecidableEq, Repr

/-- `get_player_data`'s returned dict. -/
structure PlayerData where
  player_name : String
  teams : List Membership
deriving DecidableEq, Repr

/-- `get_player_data`: one membership per row of the player; the teammates of
a membership are all `player_name` values of rows with the same `team_id`
(the source filters only on `team_id`, not on the season) and a different
`player_name`, sorted, duplicates kept (`.sort_values().tolist()`). -/
def get_player_data (df : List Rec) (player_name : String) : PlayerData :=
  { player_name := player_name,
    teams := (df.filter (fun r => r.player_name = player_name)).map (fun r =>
      { team_id := r.team_id, season := r.season, team_name := r.team_name,
        teammates := List.insertionSort pyLeStr
          ((df.filter (fun q => q.team_id = r.team_id ∧ q.player_name ≠ player_name)).map
            Rec.player_name) }) }

/-- The two value kinds `season_key` can return: `int(season.split('/')[0])`
on success, the whole season string on any exception. -/
inductive SKey where
  | i : Int → SKey
  | s : String → SKey
deriving DecidableEq, Repr

/-- ASCII whitespace stripped by Python's `int(str)` conversion and matched by
the regex class `\s`. -/
def isWsChar (c : Char) : Bool :=
  c = ' ' || c = '\t' || c = '\n' || c = '\r' || c = '\x0b' || c = '\x0c'

/-- `str.strip()` on a character list. -/
def stripWs (cs : List Char) : List Char :=
  ((cs.dropWhile isWsChar).reverse.dropWhile isWsChar).reverse

/-- Python's `int(s)` on a string: strip whitespace, optional sign, then a
nonempty digit string; `none` models `ValueError`.  (Underscore digit
grouping, accepted by CPython between digits, is not modelled.) -/
def pyInt (s : String) : Option Int :=
  match stripWs s.data with
  | [] => none
  | c :: rest =>
    if c = '-' then
      if rest ≠ [] ∧ rest.all isDigitChar then some (-(digitsToNat rest : Int)) else none
    else if c = '+' then
      if rest ≠ [] ∧ rest.all isDigitChar then some (digitsToNat rest : Int) else none
    else if (c :: rest).all isDigitChar then some (digitsToNat (c :: rest) : Int)
    else none

/-- `season_key` from `generate_player_page`:
`int(season.split('/')[0])`, and on any exception the season string itself. -/
def season_key (season : String) : SKey :=
  match pyInt (String.mk (season.data.takeWhile (· ≠ '/'))) with
  | some n => SKey.i n
  | none => SKey.s season

/-- CPython's `<` on two sort-key values of `int`-or-`str` kind: comparing an
`int` with a `str` raises `TypeError`, modelled as `Except.error ()`. -/
def pyLtSKey : SKey → SKey → Except Unit Bool
  | SKey.i a, SKey.i b => Except.ok (decide (a < b))
  | SKey.s a, SKey.s b => Except.ok (pyStrLt a b)
  | _, _ => Except.error ()

/-- Stable insertion of `x` into an already-sorted list, comparing keys with
CPython's possibly-raising `<` (`x` goes before the first `y` whose key is not
below `x`'s). -/
def insertByKeyE {α : Type} (key : α → SKey) (x : α) : List α → Except Unit (List α)
  | [] => Except.ok [x]
  | y :: ys =>
    match pyLtSKey (key y) (key x) with
    | Except.error e => Except.error e
    | Except.ok true =>
      match insertByKeyE key x ys with
      | Except.error e => Except.error e
      | Except.ok t => Except.ok (y :: t)
    | Except.ok false => Except.ok (x :: y :: ys)

/-- `sorted(l, key=key)` under CPython semantics: a stable ascending sort that
raises `TypeError` (`Except.error ()`) exactly when keys of the two kinds meet
— in CPython any sort of a list containing both `int` and `str` keys compares
two of them and raises, and on uniform keys every stable sort returns the same
list. -/
def pySortByKeyE {α : Type} (key : α → SKey) : List α → Except Unit (List α)
  | [] => Except.ok []
  | x :: xs =>
    match pySortByKeyE key xs with
    | Except.error e => Except.error e
    | Except.ok s => insertByKeyE key x s

/-- Single-character `str.replace` (all four sanitization sites replace only
single characters). -/
def pyReplaceChar (a b : Char) (s : String) : String :=
  String.mk (s.data.map (fun c => if c = a then b else c))

/-- The character filter `c.isalnum() or c in "._-"` shared by all
sanitization sites (ASCII alphanumerics; the data is ASCII). -/
def isSafeChar (c : Char) : Bool :=
  c.isAlphanum || c = '.' || c = '_' || c = '-'

/-- The player-filename sanitization as written in `generate_home_page`
(lines 315–316): replace space, slash and backslash by `_`, then keep only
alphanumerics and `._-`. -/
def safe_filename_home (player : String) : String :=
  String.mk ((pyReplaceChar '\\' '_' (pyReplaceChar '/' '_'
    (pyReplaceChar ' ' '_' player))).data.filter isSafeChar)

/-- The same sanitization as written in `generate_player_page`
(lines 362–363), used for the filename the player page is written to. -/
def safe_filename_player_page (player : String) : String :=
  String.mk ((pyReplaceChar '\\' '_' (pyReplaceChar '/' '_'
    (pyReplaceChar ' ' '_' player))).data.filter isSafeChar)

/-- The same sanitization as written for teammate links inside
`generate_player_page` (lines 399–400). -/
def safe_filename_teammate (teammate : String) : String :=
  String.mk ((pyReplaceChar '\\' '_' (pyReplaceChar '/' '_'
    (pyReplaceChar ' ' '_' teammate))).data.filter isSafeChar)

/-- The same sanitization as written for roster links inside
`generate_team_page` (lines 468–469). -/
def safe_filename_roster (player : String) : String :=
  String.mk ((pyReplaceChar '\\' '_' (pyReplaceChar '/' '_'
    (pyReplaceChar ' ' '_' player))).data.filter isSafeChar)

/-- The team-page filename `f"{team_id}_{season}"` with `/` and space
replaced by `_` and the same safe-character filter, as written identically in
`generate_home_page` (332–333) and `generate_team_page` (436–437). -/
def safe_filename_team (team_id : Int) (season : String) : String :=
  String.mk ((toString team_id ++ "_" ++
    pyReplaceChar ' ' '_' (pyReplaceChar '/' '_' season)).data.filter isSafeChar)

/-- `generate_player_page`, data part: sort the player's memberships with
`sorted(..., key=season_key)` (which can raise) and return the filename the
page is written to together with the page's render model.  HTML markup is a
pure function of this pair and is not modelled. -/
def generate_player_page (df : List Rec) (player_name : String) :
    Except Unit (String × PlayerData) :=
  match pySortByKeyE (fun t => season_key t.season) (get_player_data df player_name).teams with
  | Except.error e => Except.error e
  | Except.ok teams =>
    Except.ok (safe_filename_player_page player_name ++ ".html",
      { player_name := player_name, teams := teams })

/-- Monadic map in `Except`, the semantics of `main`'s page loop: pages are
produced left to right and the first exception aborts the run. -/
def mapME {α β : Type} (f : α → Except Unit β) : List α → Except Unit (List β)
  | [] => Except.ok []
  | a :: as =>
    match f a with
    | Except.error e => Except.error e
    | Except.ok b =>
      match mapME f as with
      | Except.error e => Except.error e
      | Except.ok bs => Except.ok (b :: bs)

/-- The sequence of player-page writes performed by `main`: one
`generate_player_page` per entry of `get_unique_players`, in order. -/
def generate_player_pages (df : List Rec) : Except Unit (List (String × PlayerData)) :=
  mapME (generate_player_page df) (get_unique_players df)

/-- `generate_team_page`, data part, combined with `main`'s
`if team_data:` guard: the filename and render model of one team page,
or `none` when `get_team_data` returns `None`. -/
def generate_team_page (df : List Rec) (t : TeamEntry) : Option (String × TeamData) :=
  (get_team_data df t.team_id t.season).map
    (fun d => (safe_filename_team t.team_id t.season ++ ".html", d))

/-- The sequence of team-page writes performed by `main`. -/
def generate_team_pages (df : List Rec) : List (String × TeamData) :=
  (get_unique_teams df).filterMap (generate_team_page df)

/-- The content a filename holds after a sequence of writes: the last write
wins, as for `open(..., "w")`. -/
def lastWrite {α : Type} (ws : List (String × α)) (f : String) : Option α :=
  ws.foldl (fun acc w => if w.1 = f then some w.2 else acc) none

/-- The player links emitted on the home page
(`href="players/{safe_filename}.html"` for each player). -/
def homePlayerLinks (df : List Rec) : List String :=
  (get_unique_players df).map (fun p => safe_filename_home p ++ ".html")

/-- The filenames under `players/` that the run writes: one per unique
player, named by `generate_player_page`'s sanitization. -/
def writtenPlayerFiles (df : List Rec) : List String :=
  (get_unique_players df).map (fun p => safe_filename_player_page p ++ ".html")

/-- The teammate links emitted on one player page
(`href="../players/{teammate_filename}.html"`). -/
def teammateLinks (pg : PlayerData) : List String :=
  (pg.teams.map (fun m => m.teammates.map (fun t => safe_filename_teammate t ++ ".html"))).flatten

/-- The roster links emitted on one team page
(`href="../players/{safe_player_filename}.html"`). -/
def rosterLinks (td : TeamData) : List String :=
  td.players.map (fun p => safe_filename_roster p ++ ".html")

/-- Spec-side (from the claim's words, for refutation only): scan for the
first maximal digit run of exactly four digits and return its integer value;
`curLen`/`curVal` track the digit run currently being read. -/
def fy4Aux (curLen curVal : Nat) : List Char → Option Nat
  | [] => if curLen = 4 then some curVal else none
  | c :: cs =>
    if isDigitChar c then fy4Aux (curLen + 1) (10 * curVal + (c.toNat - 48)) cs
    else if curLen = 4 then some curVal else fy4Aux 0 0 cs

/-- Spec-side (from the claim's words, for refutation only): "the first
4-digit year token treated as an integer" of a season string. -/
def firstYear4 (s : String) : Option Nat :=
  fy4Aux 0 0 s.data

/-- Spec-side (from the claim's words, for the refinement statement): the
input "contains two numeric tokens of 2–4 digits separated by whitespace,
slash, backslash, or hyphen" — some decomposition exhibits, in order, a digit
substring of 2–4 characters, a nonempty separator run, and another digit
substring of 2–4 characters. -/
def specContainsYearPair (cs : List Char) : Prop :=
  ∃ pre d1 seps d2 rest : List Char,
    cs = pre ++ d1 ++ seps ++ d2 ++ rest ∧
    2 ≤ d1.length ∧ d1.length ≤ 4 ∧ d1.all isDigitChar = true ∧
    seps ≠ [] ∧ seps.all isSepChar = true ∧
    2 ≤ d2.length ∧ d2.length ≤ 4 ∧ d2.all isDigitChar = true

/-! ### Helper lemmas: deduplication -/

theorem mem_dropDupAux {α : Type} [DecidableEq α] (a : α) :
    ∀ (l seen : List α), a ∈ dropDupAux seen l ↔ a ∈ l ∧ a ∉ seen := by
  intro l
  induction l with
  | nil => intro seen; simp [dropDupAux]
  | cons x xs ih =>
    intro seen
    by_cases hx : x ∈ seen
    · rw [show dropDupAux seen (x :: xs) = dropDupAux seen xs by simp [dropDupAux, hx], ih]
      simp only [List.mem_cons]
      by_cases hax : a = x
      · subst hax; simp [hx]
      · simp [hax]
    · rw [show dropDupAux seen (x :: xs) = x :: dropDupAux (x :: seen) xs by
        simp [dropDupAux, hx]]
      rw [List.mem_cons, ih]
      simp only [List.mem_cons]
      by_cases hax : a = x
      · subst hax; simp [hx]
      · simp [hax]

theorem nodup_dropDupAux {α : Type} [DecidableEq α] :
    ∀ (l seen : List α), (dropDupAux seen l).Nodup := by
  intro l
  induction l with
  | nil => intro seen; simp [dropDupAux]
  | cons x xs ih =>
    intro seen
    by_cases hx : x ∈ seen
    · simpa [dropDupAux, if_pos hx] using ih seen
    · simp only [dropDupAux, if_neg hx, List.nodup_cons]
      refine ⟨fun hmem => ?_, ih _⟩
      have := (mem_dropDupAux x xs (x :: seen)).mp hmem
      exact this.2 (List.mem_cons_self _ _)

theorem mem_dropDuplicates {α : Type} [DecidableEq α] (a : α) (l : List α) :
    a ∈ dropDuplicates l ↔ a ∈ l := by
  simp [dropDuplicates, mem_dropDupAux]

theorem nodup_dropDuplicates {α : Type} [DecidableEq α] (l : List α) :
    (dropDuplicates l).Nodup :=
  nodup_dropDupAux l []

theorem dropDuplicates_perm_of_perm {α : Type} [DecidableEq α] {l₁ l₂ : List α}
    (h : l₁.Perm l₂) : (dropDuplicates l₁).Perm (dropDuplicates l₂) := by
  refine (List.perm_ext_iff_of_nodup (nodup_dropDuplicates l₁) (nodup_dropDuplicates l₂)).mpr ?_
  intro a
  simp [mem_dropDuplicates, h.mem_iff]

theorem dropDupAux_append_of_mem_seen {α : Type} [DecidableEq α] {r : α} :
    ∀ {l seen : List α}, r ∈ seen → dropDupAux seen (l ++ [r]) = dropDupAux seen l := by
  intro l
  induction l with
  | nil => intro seen h; simp [dropDupAux, h]
  | cons x xs ih =>
    intro seen h
    rw [List.cons_append]
    by_cases hx : x ∈ seen
    · rw [show dropDupAux seen (x :: (xs ++ [r])) = dropDupAux seen (xs ++ [r]) by
        simp [dropDupAux, hx]]
      rw [show dropDupAux seen (x :: xs) = dropDupAux seen xs by simp [dropDupAux, hx]]
      exact ih h
    · rw [show dropDupAux seen (x :: (xs ++ [r])) = x :: dropDupAux (x :: seen) (xs ++ [r]) by
        simp [dropDupAux, hx]]
      rw [show dropDupAux seen (x :: xs) = x :: dropDupAux (x :: seen) xs by
        simp [dropDupAux, hx]]
      exact congrArg (x :: ·) (ih (List.mem_cons_of_mem _ h))

theorem dropDupAux_append_of_mem {α : Type} [DecidableEq α] {r : α} :
    ∀ {l seen : List α}, r ∈ l → dropDupAux seen (l ++ [r]) = dropDupAux seen l := by
  intro l
  induction l with
  | nil => intro seen h; cases h
  | cons x xs ih =>
    intro seen h
    rw [List.cons_append]
    by_cases hx : x ∈ seen
    · rw [show dropDupAux seen (x :: (xs ++ [r])) = dropDupAux seen (xs ++ [r]) by
        simp [dropDupAux, hx]]
      rw [show dropDupAux seen (x :: xs) = dropDupAux seen xs by simp [dropDupAux, hx]]
      rcases List.mem_cons.mp h with rfl | h
      · exact dropDupAux_append_of_mem_seen hx
      · exact ih h
    · rw [show dropDupAux seen (x :: (xs ++ [r])) = x :: dropDupAux (x :: seen) (xs ++ [r]) by
        simp [dropDupAux, hx]]
      rw [show dropDupAux seen (x :: xs) = x :: dropDupAux (x :: seen) xs by
        simp [dropDupAux, hx]]
      rcases List.mem_cons.mp h with rfl | h
      · exact congrArg (r :: ·) (dropDupAux_append_of_mem_seen (List.mem_cons_self _ _))
      · exact congrArg (x :: ·) (ih h)

theorem dropDuplicates_append_of_mem {α : Type} [DecidableEq α] {r : α} {l : List α}
    (h : r ∈ l) : dropDuplicates (l ++ [r]) = dropDuplicates l :=
  dropDupAux_append_of_mem h

/-! ### Helper lemmas: the Python string order -/

theorem char_toNat_inj {a b : Char} (h : a.toNat = b.toNat) : a = b :=
  Char.eq_of_val_eq (UInt32.ext h)

theorem pyStrLtL_irrefl : ∀ l : List Char, pyStrLtL l l = false := by
  intro l
  induction l with
  | nil => rfl
  | cons a as ih => simp [pyStrLtL, ih]

theorem pyStrLtL_trans :
    ∀ {a b c : List Char}, pyStrLtL a b = true → pyStrLtL b c = true → pyStrLtL a c = true := by
  intro a
  induction a with
  | nil =>
    intro b c hab hbc
    cases b with
    | nil => simp [pyStrLtL] at hab
    | cons y ys =>
      cases c with
      | nil => simp [pyStrLtL] at hbc
      | cons z zs => simp [pyStrLtL]
  | cons x xs ih =>
    intro b c hab hbc
    cases b with
    | nil => simp [pyStrLtL] at hab
    | cons y ys =>
      cases c with
      | nil => simp [pyStrLtL] at hbc
      | cons z zs =>
        simp only [pyStrLtL] at hab hbc ⊢
        rcases Nat.lt_trichotomy x.toNat y.toNat with h1 | h1 | h1
        · rcases Nat.lt_trichotomy y.toNat z.toNat with h2 | h2 | h2
          · have : x.toNat < z.toNat := Nat.lt_trans h1 h2
            simp [this]
          · have : x.toNat < z.toNat := by omega
            simp [this]
          · rw [if_neg (by omega : ¬ y.toNat < z.toNat), if_pos h2] at hbc
            cases hbc
        · rcases Nat.lt_trichotomy y.toNat z.toNat with h2 | h2 | h2
          · have : x.toNat < z.toNat := by omega
            simp [this]
          · rw [if_neg (by omega : ¬ x.toNat < y.toNat),
              if_neg (by omega : ¬ y.toNat < x.toNat)] at hab
            rw [if_neg (by omega : ¬ y.toNat < z.toNat),
              if_neg (by omega : ¬ z.toNat < y.toNat)] at hbc
            rw [if_neg (by omega : ¬ x.toNat < z.toNat),
              if_neg (by omega : ¬ z.toNat < x.toNat)]
            exact ih hab hbc
          · rw [if_neg (by omega : ¬ y.toNat < z.toNat), if_pos h2] at hbc
            cases hbc
        · rw [if_neg (by omega : ¬ x.toNat < y.toNat), if_pos h1] at hab
          cases hab

theorem pyStrLtL_connex :
    ∀ {a b : List Char}, pyStrLtL a b = false → pyStrLtL b a = false → a = b := by
  intro a
  induction a with
  | nil =>
    intro b hab _
    cases b with
    | nil => rfl
    | cons y ys => simp [pyStrLtL] at hab
  | cons x xs ih =>
    intro b hab hba
    cases b with
    | nil => simp [pyStrLtL] at hba
    | cons y ys =>
      simp only [pyStrLtL] at hab hba
      rcases Nat.lt_trichotomy x.toNat y.toNat with h1 | h1 | h1
      · rw [if_pos h1] at hab
        cases hab
      · rw [if_neg (by omega : ¬ x.toNat < y.toNat),
          if_neg (by omega : ¬ y.toNat < x.toNat)] at hab
        rw [if_neg (by omega : ¬ y.toNat < x.toNat),
          if_neg (by omega : ¬ x.toNat < y.toNat)] at hba
        rw [char_toNat_inj h1, ih hab hba]
      · rw [if_pos h1] at hba
        cases hba

theorem pyStrLtL_asymm {a b : List Char} (h : pyStrLtL a b = true) : pyStrLtL b a = false := by
  by_contra hba
  have hba' : pyStrLtL b a = true := by
    cases hx : pyStrLtL b a
    · exact absurd hx hba
    · rfl
  have := pyStrLtL_trans h hba'
  rw [pyStrLtL_irrefl] at this
  cases this

theorem string_data_inj : ∀ {s t : String}, s.data = t.data → s = t := by
  intro s t h
  cases s
  cases t
  exact congrArg String.mk h

instance : IsTotal String pyLeStr := by
  constructor
  intro a b
  unfold pyLeStr pyStrLt
  cases h : pyStrLtL b.data a.data
  · exact Or.inl rfl
  · exact Or.inr (pyStrLtL_asymm h)

instance : IsTrans String pyLeStr := by
  constructor
  intro a b c hab hbc
  unfold pyLeStr pyStrLt at *
  cases h : pyStrLtL c.data a.data
  · rfl
  · exfalso
    cases h2 : pyStrLtL b.data c.data
    · have e : b.data = c.data := pyStrLtL_connex h2 hbc
      rw [← e] at h
      rw [hab] at h
      cases h
    · have h3 : pyStrLtL b.data a.data = true := pyStrLtL_trans h2 h
      rw [hab] at h3
      cases h3

instance : IsAntisymm String pyLeStr := by
  constructor
  intro a b hab hba
  exact string_data_inj (pyStrLtL_connex hba hab)

theorem pyStrLt_trans {a b c : String} (h1 : pyStrLt a b = true) (h2 : pyStrLt b c = true) :
    pyStrLt a c = true :=
  pyStrLtL_trans h1 h2

instance : IsTotal TeamEntry teamLe := by
  constructor
  intro a b
  unfold teamLe
  cases h : pyStrLt a.season b.season
  · cases h2 : pyStrLt b.season a.season
    · have hs : a.season = b.season := string_data_inj (pyStrLtL_connex h h2)
      rcases total_of pyLeStr a.team_name b.team_name with h3 | h3
      · exact Or.inl (Or.inr ⟨hs, h3⟩)
      · exact Or.inr (Or.inr ⟨hs.symm, h3⟩)
    · exact Or.inr (Or.inl rfl)
  · exact Or.inl (Or.inl rfl)

instance : IsTrans TeamEntry teamLe := by
  constructor
  intro a b c hab hbc
  unfold teamLe at *
  rcases hab with h1 | ⟨e1, n1⟩
  · rcases hbc with h2 | ⟨e2, _⟩
    · exact Or.inl (pyStrLt_trans h1 h2)
    · exact Or.inl (e2 ▸ h1)
  · rcases hbc with h2 | ⟨e2, n2⟩
    · exact Or.inl (e1 ▸ h2)
    · exact Or.inr ⟨e1.trans e2, IsTrans.trans _ _ _ n1 n2⟩

/-! ### Helper lemmas: the monadic sort and the page loop -/

theorem insertByKeyE_perm {α : Type} {key : α → SKey} {x : α} :
    ∀ {l l' : List α}, insertByKeyE key x l = Except.ok l' → l'.Perm (x :: l) := by
  intro l
  induction l with
  | nil =>
    intro l' h
    simp only [insertByKeyE] at h
    cases h
    exact List.Perm.refl _
  | cons y ys ih =>
    intro l' h
    cases hk : pyLtSKey (key y) (key x) with
    | error e => simp only [insertByKeyE, hk] at h; cases h
    | ok b =>
      cases b with
      | true =>
        cases ht : insertByKeyE key x ys with
        | error e => simp only [insertByKeyE, hk, ht] at h; cases h
        | ok t =>
          simp only [insertByKeyE, hk, ht, Except.ok.injEq] at h
          subst h
          exact ((ih ht).cons y).trans (List.Perm.swap x y ys)
      | false =>
        simp only [insertByKeyE, hk, Except.ok.injEq] at h
        subst h
        exact List.Perm.refl _

theorem pySortByKeyE_perm {α : Type} {key : α → SKey} :
    ∀ {l l' : List α}, pySortByKeyE key l = Except.ok l' → l'.Perm l := by
  intro l
  induction l with
  | nil =>
    intro l' h
    simp only [pySortByKeyE] at h
    cases h
    exact List.Perm.refl _
  | cons x xs ih =>
    intro l' h
    cases hs : pySortByKeyE key xs with
    | error e => simp only [pySortByKeyE, hs] at h; cases h
    | ok s =>
      simp only [pySortByKeyE, hs] at h
      exact (insertByKeyE_perm h).trans ((ih hs).cons x)

theorem mapME_ok_mem {α β : Type} {f : α → Except Unit β} :
    ∀ {l : List α} {bs : List β}, mapME f l = Except.ok bs →
      ∀ {a : α}, a ∈ l → ∃ b, f a = Except.ok b ∧ b ∈ bs := by
  intro l
  induction l with
  | nil => intro bs _ a ha; cases ha
  | cons x xs ih =>
    intro bs h a ha
    cases hx : f x with
    | error e => simp only [mapME, hx] at h; cases h
    | ok b =>
      cases hxs : mapME f xs with
      | error e => simp only [mapME, hx, hxs] at h; cases h
      | ok tb =>
        simp only [mapME, hx, hxs, Except.ok.injEq] at h
        subst h
        rcases List.mem_cons.mp ha with rfl | ha
        · exact ⟨b, hx, List.mem_cons_self _ _⟩
        · rcases ih hxs ha with ⟨b2, hb2, hmem⟩
          exact ⟨b2, hb2, List.mem_cons_of_mem _ hmem⟩

theorem mapME_ok_mem_rev {α β : Type} {f : α → Except Unit β} :
    ∀ {l : List α} {bs : List β}, mapME f l = Except.ok bs →
      ∀ {b : β}, b ∈ bs → ∃ a, a ∈ l ∧ f a = Except.ok b := by
  intro l
  induction l with
  | nil =>
    intro bs h b hb
    simp only [mapME] at h
    cases h
    cases hb
  | cons x xs ih =>
    intro bs h b hb
    cases hx : f x with
    | error e => simp only [mapME, hx] at h; cases h
    | ok b0 =>
      cases hxs : mapME f xs with
      | error e => simp only [mapME, hx, hxs] at h; cases h
      | ok tb =>
        simp only [mapME, hx, hxs, Except.ok.injEq] at h
        subst h
        rcases List.mem_cons.mp hb with rfl | hb
        · exact ⟨x, List.mem_cons_self _ _, hx⟩
        · rcases ih hxs hb with ⟨a, ha, hfa⟩
          exact ⟨a, List.mem_cons_of_mem _ ha, hfa⟩

/-! ### Claim theorems -/

/-- C2: the claim says the rendered teammates of a membership are the players
sharing the same `(team_id, canonical_season)` minus the player itself.  The
code filters only on `team_id`: in this two-record dataset, P2's only record
is on team 1 in season 2021/2022, yet P2 is listed as a teammate of P1's
2020/2021 membership on team 1.  This contradicts the spec's definition (and
the page's own "Season:" heading), so the code, not the claim, is wrong. -/
theorem C2_teammates_cross_season_bug :
    read_all_csvs [⟨1, "2020/2021", "T", "P1", "t"⟩, ⟨1, "2021/2022", "T", "P2", "t"⟩] =
      [⟨1, "2020/2021", "T", "P1", "t"⟩, ⟨1, "2021/2022", "T", "P2", "t"⟩] ∧
    get_player_data
      (read_all_csvs [⟨1, "2020/2021", "T", "P1", "t"⟩, ⟨1, "2021/2022", "T", "P2", "t"⟩])
      "P1" = ⟨"P1", [⟨1, "2020/2021", "T", ["P2"]⟩]⟩ := by
  constructor
  · decide
  · decide

/-- C4: the claim says memberships sort by ascending year with unparsable
seasons last, preserving discovery order among themselves.  In fact
`season_key` returns an `int` for parsable seasons and the season `str`
otherwise, so (first conjunct) a player with one parsable and one unparsable
season makes `sorted` raise `TypeError` — the run crashes instead of sorting —
and (second conjunct) a player whose seasons are all unparsable gets them
sorted lexicographically by season string ("Alpha Cup" before "Zeta Cup"),
not in discovery order. -/
theorem C4_membership_order_bug :
    generate_player_page
      (read_all_csvs [⟨1, "2020/2021", "T", "P", "t"⟩, ⟨2, "Fall League", "U", "P", "t"⟩])
      "P" = Except.error () ∧
    generate_player_page
      (read_all_csvs [⟨1, "Zeta Cup", "T", "P", "t"⟩, ⟨2, "Alpha Cup", "U", "P", "t"⟩])
      "P" = Except.ok ("P.html",
        ⟨"P", [⟨2, "Alpha Cup", "U", []⟩, ⟨1, "Zeta Cup", "T", []⟩]⟩) := by
  constructor
  · decide
  · decide

/-- C9: a player's own name never appears among the teammates of any of the
player's memberships — the code filters `df['player_name'] != player_name`
before building each teammates list. -/
theorem C9_teammate_exclusion (df : List Rec) (p : String) (m : Membership)
    (hm : m ∈ (get_player_data df p).teams) : p ∉ m.teammates := by
  intro hp
  simp only [get_player_data, List.mem_map] at hm
  rcases hm with ⟨r, _, rfl⟩
  simp only [List.mem_insertionSort, List.mem_map] at hp
  rcases hp with ⟨q, hq, hqname⟩
  rcases List.mem_filter.mp hq with ⟨_, hcond⟩
  rcases of_decide_eq_true hcond with ⟨_, hne⟩
  exact hne hqname

/-- C9 witness: in a concrete two-player dataset, P's membership on team 1
lists only Q, and P is indeed not an element of that teammates list. -/
theorem C9_teammate_exclusion_witness :
    (⟨1, "2020/2021", "T", ["Q"]⟩ : Membership) ∈
      (get_player_data (read_all_csvs
        [⟨1, "2020/2021", "T", "P", "t"⟩, ⟨1, "2020/2021", "T", "Q", "t"⟩]) "P").teams ∧
    "P" ∉ (⟨1, "2020/2021", "T", ["Q"]⟩ : Membership).teammates :=
  ⟨by decide,
   C9_teammate_exclusion
     (read_all_csvs [⟨1, "2020/2021", "T", "P", "t"⟩, ⟨1, "2020/2021", "T", "Q", "t"⟩])
     "P" ⟨1, "2020/2021", "T", ["Q"]⟩ (by decide)⟩

/-- C6 counterexample: two records identical in the 4-tuple
`(team_id, season, team_name, player_name)` but with different `fetched_at`
stamps do NOT collapse: `drop_duplicates()` compares all five columns, both
rows survive, and player P's page gets two membership cards instead of one —
two rows' worth of effect, refuting the claimed 4-tuple record identity. -/
theorem C6_dedup_counterexample :
    read_all_csvs [⟨1, "2020/2021", "T", "P", "t1"⟩, ⟨1, "2020/2021", "T", "P", "t2"⟩] =
      [⟨1, "2020/2021", "T", "P", "t1"⟩, ⟨1, "2020/2021", "T", "P", "t2"⟩] ∧
    (get_player_data
      (read_all_csvs [⟨1, "2020/2021", "T", "P", "t1"⟩, ⟨1, "2020/2021", "T", "P", "t2"⟩])
      "P").teams.length = 2 := by
  constructor
  · decide
  · decide

/-- C6 amended: record identity is the full five-column row after season
normalization (`fetched_at` included).  Feeding a record again whose
normalized row already occurs has no effect: the loaded table, the player
list, the team list and every player's data are unchanged. -/
theorem C6_dedup_amended (rows : List Rec) (r : Rec)
    (h : normRec r ∈ rows.map normRec) :
    read_all_csvs (rows ++ [r]) = read_all_csvs rows ∧
    get_unique_players (read_all_csvs (rows ++ [r])) =
      get_unique_players (read_all_csvs rows) ∧
    get_unique_teams (read_all_csvs (rows ++ [r])) =
      get_unique_teams (read_all_csvs rows) ∧
    ∀ p, get_player_data (read_all_csvs (rows ++ [r])) p =
      get_player_data (read_all_csvs rows) p := by
  have h1 : read_all_csvs (rows ++ [r]) = read_all_csvs rows := by
    unfold read_all_csvs
    rw [List.map_append, List.map_singleton]
    exact dropDuplicates_append_of_mem h
  exact ⟨h1, by rw [h1], by rw [h1], fun p => by rw [h1]⟩

/-- C6 witness: re-feeding the first record with its season written as
"20/21" (which normalizes to the same row) leaves the loaded table
unchanged. -/
theorem C6_dedup_amended_witness :
    read_all_csvs ([⟨1, "2020/2021", "T", "P", "t"⟩] ++ [⟨1, "20/21", "T", "P", "t"⟩]) =
      read_all_csvs [⟨1, "2020/2021", "T", "P", "t"⟩] :=
  (C6_dedup_amended [⟨1, "2020/2021", "T", "P", "t"⟩] ⟨1, "20/21", "T", "P", "t"⟩
    (by decide)).1

/-- C3 counterexample: two presentations of the same unordered record set
(the two rows swapped) produce team lists that differ byte-for-byte: the two
teams tie on the `(season, team_name)` sort key (same name "Red", same
season), so the stable sort keeps discovery order, which differs between the
presentations.  The full output is therefore not order-independent. -/
theorem C3_determinism_counterexample :
    List.Perm
      [(⟨1, "2020/2021", "Red", "P1", "t"⟩ : Rec), ⟨2, "2020/2021", "Red", "P2", "t"⟩]
      [⟨2, "2020/2021", "Red", "P2", "t"⟩, ⟨1, "2020/2021", "Red", "P1", "t"⟩] ∧
    get_unique_teams (read_all_csvs
        [⟨1, "2020/2021", "Red", "P1", "t"⟩, ⟨2, "2020/2021", "Red", "P2", "t"⟩]) ≠
      get_unique_teams (read_all_csvs
        [⟨2, "2020/2021", "Red", "P2", "t"⟩, ⟨1, "2020/2021", "Red", "P1", "t"⟩]) :=
  ⟨List.Perm.swap _ _ _, by decide⟩

/-- C3 amended: under permutation of the input rows, the resolved player list
and every player slug are byte-identical, and the team list is the same
multiset of entries (hence the same team slugs as a multiset); but the team
list's order — and a player's membership order — may depend on presentation
order when sort keys tie, as the counterexample shows. -/
theorem C3_determinism_amended (rows1 rows2 : List Rec) (h : rows1.Perm rows2) :
    get_unique_players (read_all_csvs rows1) = get_unique_players (read_all_csvs rows2) ∧
    (get_unique_players (read_all_csvs rows1)).map
        (fun p => safe_filename_player_page p ++ ".html") =
      (get_unique_players (read_all_csvs rows2)).map
        (fun p => safe_filename_player_page p ++ ".html") ∧
    (get_unique_teams (read_all_csvs rows1)).Perm (get_unique_teams (read_all_csvs rows2)) := by
  have hperm : (read_all_csvs rows1).Perm (read_all_csvs rows2) :=
    dropDuplicates_perm_of_perm (h.map normRec)
  have hp : (get_unique_players (read_all_csvs rows1)).Perm
      (get_unique_players (read_all_csvs rows2)) := by
    unfold get_unique_players
    refine (List.perm_insertionSort pyLeStr _).trans
      ((dropDuplicates_perm_of_perm (hperm.map Rec.player_name)).trans ?_)
    exact (List.perm_insertionSort pyLeStr _).symm
  have heq : get_unique_players (read_all_csvs rows1) = get_unique_players (read_all_csvs rows2) :=
    List.eq_of_perm_of_sorted hp
      (List.sorted_insertionSort pyLeStr _) (List.sorted_insertionSort pyLeStr _)
  refine ⟨heq, by rw [heq], ?_⟩
  unfold get_unique_teams
  refine (List.perm_insertionSort teamLe _).trans
    ((dropDuplicates_perm_of_perm (hperm.map recTeamEntry)).trans ?_)
  exact (List.perm_insertionSort teamLe _).symm

/-- C3 witness: for the two concrete presentations of the counterexample's
record set, the resolved player lists coincide. -/
theorem C3_determinism_amended_witness :
    get_unique_players (read_all_csvs
        [⟨1, "2020/2021", "Red", "P1", "t"⟩, ⟨2, "2020/2021", "Red", "P2", "t"⟩]) =
      get_unique_players (read_all_csvs
        [⟨2, "2020/2021", "Red", "P2", "t"⟩, ⟨1, "2020/2021", "Red", "P1", "t"⟩]) :=
  (C3_determinism_amended _ _ (List.Perm.swap _ _ _)).1

/-- C5 counterexample.  First conjunct: with two rows differing only in
`team_name`, `get_unique_teams` dedups the `(team_id, team_name, season)`
triple and keeps TWO entries for the single `(team_id, season)` key —
"first value wins" holds only for the team page body, not for the exposed
list.  Remaining conjuncts: the exposed ordering compares season strings
lexicographically, placing "2020/2021" before "999/1000", although the
claimed first-4-digit-year ordering demands 1000 = year("999/1000") before
2020 = year("2020/2021"). -/
theorem C5_team_list_counterexample :
    get_unique_teams (read_all_csvs
        [⟨1, "2020/2021", "Red", "P1", "t"⟩, ⟨1, "2020/2021", "Blue", "P2", "t"⟩]) =
      [⟨1, "Blue", "2020/2021"⟩, ⟨1, "Red", "2020/2021"⟩] ∧
    get_unique_teams (read_all_csvs
        [⟨1, "2020/2021", "T", "P", "t"⟩, ⟨2, "999/1000", "U", "Q", "t"⟩]) =
      [⟨1, "T", "2020/2021"⟩, ⟨2, "U", "999/1000"⟩] ∧
    firstYear4 "999/1000" = some 1000 ∧
    firstYear4 "2020/2021" = some 2020 := by
  refine ⟨by decide, by decide, by decide, by decide⟩

/-- C5 amended: the exposed team list has exactly one entry per distinct
`(team_id, team_name, season)` TRIPLE occurring in the normalized data (a
`(team_id, season)` key appears once per distinct `team_name` spelling), and
it is sorted ascending by the pair (season, team_name) under plain
lexicographic string comparison — year tokens get no special treatment. -/
theorem C5_team_list_amended (rows : List Rec) :
    List.Sorted teamLe (get_unique_teams (read_all_csvs rows)) ∧
    (get_unique_teams (read_all_csvs rows)).Perm
      (dropDuplicates ((read_all_csvs rows).map recTeamEntry)) ∧
    (get_unique_teams (read_all_csvs rows)).Nodup ∧
    ∀ t : TeamEntry, t ∈ get_unique_teams (read_all_csvs rows) ↔
      t ∈ (read_all_csvs rows).map recTeamEntry := by
  refine ⟨List.sorted_insertionSort teamLe _, List.perm_insertionSort teamLe _, ?_, ?_⟩
  · exact ((List.perm_insertionSort teamLe _).nodup_iff).mpr (nodup_dropDuplicates _)
  · intro t
    unfold get_unique_teams
    rw [List.mem_insertionSort, mem_dropDuplicates]

theorem generate_player_page_ok {df : List Rec} {p : String} {w : String × PlayerData}
    (h : generate_player_page df p = Except.ok w) :
    w.1 = safe_filename_player_page p ++ ".html" ∧ w.2.player_name = p ∧
      ∃ ts, pySortByKeyE (fun t => season_key t.season) (get_player_data df p).teams =
        Except.ok ts ∧ w.2.teams = ts := by
  cases hs : pySortByKeyE (fun t => season_key t.season) (get_player_data df p).teams with
  | error e => simp only [generate_player_page, hs] at h; cases h
  | ok ts =>
    simp only [generate_player_page, hs, Except.ok.injEq] at h
    subst h
    exact ⟨rfl, rfl, ts, rfl, rfl⟩

theorem mem_get_unique_teams_team_data {df : List Rec} {t : TeamEntry}
    (h : t ∈ get_unique_teams df) :
    ∃ d, get_team_data df t.team_id t.season = some d ∧
      d.team_id = t.team_id ∧ d.season = t.season := by
  rw [get_unique_teams, List.mem_insertionSort, mem_dropDuplicates, List.mem_map] at h
  rcases h with ⟨r, hr, rfl⟩
  have hmem : r ∈ df.filter
      (fun q => decide (q.team_id = (recTeamEntry r).team_id ∧
        q.season = (recTeamEntry r).season)) := by
    rw [List.mem_filter]
    exact ⟨hr, by simp [recTeamEntry]⟩
  cases hf : df.filter
      (fun q => decide (q.team_id = (recTeamEntry r).team_id ∧
        q.season = (recTeamEntry r).season)) with
  | nil => rw [hf] at hmem; cases hmem
  | cons a as =>
    refine ⟨⟨(recTeamEntry r).team_id, a.team_name, (recTeamEntry r).season,
      List.insertionSort pyLeStr (dropDuplicates ((a :: as).map Rec.player_name))⟩,
      ?_, rfl, rfl⟩
    simp only [get_team_data, hf]

/-- C1 counterexample: players "A B" and "A_B" sanitize to the same slug
"A_B".  The run does not fail — no exception of any kind is raised — and both
player pages are written, in order, to the single file `A_B.html`, whose
final content is whichever page was written last.  No `SlugCollisionError`
exists anywhere in the program. -/
theorem C1_slug_collision_counterexample :
    generate_player_pages
      (read_all_csvs [⟨1, "2020/2021", "T", "A B", "t"⟩, ⟨1, "2020/2021", "T", "A_B", "t"⟩]) =
      Except.ok
        [("A_B.html", ⟨"A B", [⟨1, "2020/2021", "T", ["A_B"]⟩]⟩),
         ("A_B.html", ⟨"A_B", [⟨1, "2020/2021", "T", ["A B"]⟩]⟩)] ∧
    lastWrite
      [("A_B.html", (⟨"A B", [⟨1, "2020/2021", "T", ["A_B"]⟩]⟩ : PlayerData)),
       ("A_B.html", ⟨"A_B", [⟨1, "2020/2021", "T", ["A B"]⟩]⟩)] "A_B.html" =
      some ⟨"A_B", [⟨1, "2020/2021", "T", ["A B"]⟩]⟩ ∧
    ("A B" : String) ≠ "A_B" := by
  refine ⟨by decide, by decide, by decide⟩

/-- C1 amended: on a slug collision the engine does not fail — it silently
overwrites.  Player half: when two distinct players sanitize to the same
filename and the page run completes, both distinct pages are written to that
one filename, so the final file content misses at least one of them.  Team
half: when two team instances with distinct `(team_id, season)` keys sanitize
to the same filename, both distinct team pages are written to that one
filename. -/
theorem C1_slug_collision_amended :
    (∀ (df : List Rec) (p1 p2 : String) (ws : List (String × PlayerData)),
      p1 ∈ get_unique_players df → p2 ∈ get_unique_players df → p1 ≠ p2 →
      safe_filename_player_page p1 = safe_filename_player_page p2 →
      generate_player_pages df = Except.ok ws →
      ∃ pg1 pg2 : PlayerData,
        (safe_filename_player_page p1 ++ ".html", pg1) ∈ ws ∧
        (safe_filename_player_page p1 ++ ".html", pg2) ∈ ws ∧
        pg1.player_name = p1 ∧ pg2.player_name = p2 ∧ pg1 ≠ pg2 ∧
        ∀ c, lastWrite ws (safe_filename_player_page p1 ++ ".html") = some c →
          c ≠ pg1 ∨ c ≠ pg2) ∧
    (∀ (df : List Rec) (t1 t2 : TeamEntry),
      t1 ∈ get_unique_teams df → t2 ∈ get_unique_teams df →
      (t1.team_id, t1.season) ≠ (t2.team_id, t2.season) →
      safe_filename_team t1.team_id t1.season = safe_filename_team t2.team_id t2.season →
      ∃ d1 d2 : TeamData,
        (safe_filename_team t1.team_id t1.season ++ ".html", d1) ∈ generate_team_pages df ∧
        (safe_filename_team t1.team_id t1.season ++ ".html", d2) ∈ generate_team_pages df ∧
        d1 ≠ d2) := by
  constructor
  · intro df p1 p2 ws hp1 hp2 hne hfile hrun
    rcases mapME_ok_mem hrun hp1 with ⟨w1, hw1, hw1mem⟩
    rcases mapME_ok_mem hrun hp2 with ⟨w2, hw2, hw2mem⟩
    rcases generate_player_page_ok hw1 with ⟨hf1, hn1, _⟩
    rcases generate_player_page_ok hw2 with ⟨hf2, hn2, _⟩
    refine ⟨w1.2, w2.2, ?_, ?_, hn1, hn2, ?_, ?_⟩
    · rw [← hf1]
      exact hw1mem
    · rw [hfile, ← hf2]
      exact hw2mem
    · intro he
      exact hne (hn1 ▸ hn2 ▸ congrArg PlayerData.player_name he)
    · intro c _
      by_cases hc : c = w1.2
      · right
        intro hc2
        exact hne (hn1 ▸ hn2 ▸ congrArg PlayerData.player_name (hc ▸ hc2 ▸ rfl : w1.2 = w2.2))
      · exact Or.inl hc
  · intro df t1 t2 ht1 ht2 hne hfile
    rcases mem_get_unique_teams_team_data ht1 with ⟨d1, hd1, hid1, hs1⟩
    rcases mem_get_unique_teams_team_data ht2 with ⟨d2, hd2, hid2, hs2⟩
    refine ⟨d1, d2, ?_, ?_, ?_⟩
    · simp only [generate_team_pages, List.mem_filterMap]
      exact ⟨t1, ht1, by simp [generate_team_page, hd1]⟩
    · simp only [generate_team_pages, List.mem_filterMap]
      exact ⟨t2, ht2, by simp [generate_team_page, hd2, hfile]⟩
    · intro he
      apply hne
      rw [← hid1, ← hs1, ← hid2, ← hs2, he]

/-- C1 witness: the amended theorem applied to the two concrete collision
scenarios — the colliding players "A B" / "A_B" of the counterexample, and
two team instances of team 1 with seasons "A/B" and "A B" whose slugs both
sanitize to `1_A_B`. -/
theorem C1_slug_collision_witness :
    (∃ pg1 pg2 : PlayerData,
      (safe_filename_player_page "A B" ++ ".html", pg1) ∈
        [("A_B.html", (⟨"A B", [⟨1, "2020/2021", "T", ["A_B"]⟩]⟩ : PlayerData)),
         ("A_B.html", ⟨"A_B", [⟨1, "2020/2021", "T", ["A B"]⟩]⟩)] ∧
      (safe_filename_player_page "A B" ++ ".html", pg2) ∈
        [("A_B.html", (⟨"A B", [⟨1, "2020/2021", "T", ["A_B"]⟩]⟩ : PlayerData)),
         ("A_B.html", ⟨"A_B", [⟨1, "2020/2021", "T", ["A B"]⟩]⟩)] ∧
      pg1.player_name = "A B" ∧ pg2.player_name = "A_B" ∧ pg1 ≠ pg2 ∧
      ∀ c, lastWrite
          [("A_B.html", (⟨"A B", [⟨1, "2020/2021", "T", ["A_B"]⟩]⟩ : PlayerData)),
           ("A_B.html", ⟨"A_B", [⟨1, "2020/2021", "T", ["A B"]⟩]⟩)]
          (safe_filename_player_page "A B" ++ ".html") = some c →
        c ≠ pg1 ∨ c ≠ pg2) ∧
    (∃ d1 d2 : TeamData,
      (safe_filename_team (1 : Int) "A B" ++ ".html", d1) ∈
        generate_team_pages (read_all_csvs
          [⟨1, "A/B", "X", "P", "t"⟩, ⟨1, "A B", "Y", "Q", "t"⟩]) ∧
      (safe_filename_team (1 : Int) "A B" ++ ".html", d2) ∈
        generate_team_pages (read_all_csvs
          [⟨1, "A/B", "X", "P", "t"⟩, ⟨1, "A B", "Y", "Q", "t"⟩]) ∧
      d1 ≠ d2) :=
  ⟨C1_slug_collision_amended.1
      (read_all_csvs [⟨1, "2020/2021", "T", "A B", "t"⟩, ⟨1, "2020/2021", "T", "A_B", "t"⟩])
      "A B" "A_B" _ (by decide) (by decide) (by decide) (by decide) (by decide),
   C1_slug_collision_amended.2
      (read_all_csvs [⟨1, "A/B", "X", "P", "t"⟩, ⟨1, "A B", "Y", "Q", "t"⟩])
      ⟨1, "Y", "A B"⟩ ⟨1, "X", "A/B"⟩ (by decide) (by decide) (by decide) (by decide)⟩

theorem mem_players_of_mem_names {df : List Rec} {t : String}
    (h : t ∈ df.map Rec.player_name) : t ∈ get_unique_players df := by
  unfold get_unique_players
  rw [List.mem_insertionSort, mem_dropDuplicates]
  exact h

theorem teammates_mem_names {df : List Rec} {p t : String} {m : Membership}
    (hm : m ∈ (get_player_data df p).teams) (ht : t ∈ m.teammates) :
    t ∈ df.map Rec.player_name := by
  simp only [get_player_data, List.mem_map] at hm
  rcases hm with ⟨r, _, rfl⟩
  simp only [List.mem_insertionSort, List.mem_map] at ht
  rcases ht with ⟨q, hq, rfl⟩
  exact List.mem_map_of_mem Rec.player_name (List.mem_of_mem_filter hq)

theorem team_data_players_mem_names {df : List Rec} {team_id : Int} {season : String}
    {d : TeamData} (hd : get_team_data df team_id season = some d) :
    ∀ p ∈ d.players, p ∈ df.map Rec.player_name := by
  intro p hp
  cases hf : df.filter (fun r => decide (r.team_id = team_id ∧ r.season = season)) with
  | nil => simp only [get_team_data, hf] at hd; cases hd
  | cons a as =>
    simp only [get_team_data, hf, Option.some.injEq] at hd
    subst hd
    simp only [List.mem_insertionSort, mem_dropDuplicates, List.mem_map] at hp
    rcases hp with ⟨q, hq, rfl⟩
    refine List.mem_map_of_mem Rec.player_name ?_
    exact List.mem_of_mem_filter (hf ▸ hq)

/-- C10: every player hyperlink the site renders uses exactly the filename
the run writes for that player.  First conjunct: the four textually repeated
sanitization sites (home page, player-page filename, teammate links, roster
links) compute the same function.  Remaining conjuncts: every home-page
player link, every teammate link on every generated player page, and every
roster link on every generated team page is an element of the written
player-page filenames. -/
theorem C10_link_consistency (df : List Rec) :
    (∀ s : String, safe_filename_home s = safe_filename_player_page s ∧
      safe_filename_teammate s = safe_filename_player_page s ∧
      safe_filename_roster s = safe_filename_player_page s) ∧
    (∀ f ∈ homePlayerLinks df, f ∈ writtenPlayerFiles df) ∧
    (∀ ws, generate_player_pages df = Except.ok ws →
      ∀ w ∈ ws, ∀ f ∈ teammateLinks w.2, f ∈ writtenPlayerFiles df) ∧
    (∀ w ∈ generate_team_pages df, ∀ f ∈ rosterLinks w.2, f ∈ writtenPlayerFiles df) := by
  refine ⟨fun s => ⟨rfl, rfl, rfl⟩, ?_, ?_, ?_⟩
  · intro f hf
    simp only [homePlayerLinks, List.mem_map] at hf
    rcases hf with ⟨p, hp, rfl⟩
    simp only [writtenPlayerFiles, List.mem_map]
    exact ⟨p, hp, rfl⟩
  · intro ws hrun w hw f hf
    rcases mapME_ok_mem_rev hrun hw with ⟨p, hp, hpage⟩
    rcases generate_player_page_ok hpage with ⟨_, _, ts, hts, hteams⟩
    simp only [teammateLinks, List.mem_flatten] at hf
    rcases hf with ⟨inner, hinner, hfin⟩
    rw [List.mem_map] at hinner
    rcases hinner with ⟨m, hm, rfl⟩
    rw [List.mem_map] at hfin
    rcases hfin with ⟨t, htm, rfl⟩
    have hm2 : m ∈ (get_player_data df p).teams := by
      rw [hteams] at hm
      exact (pySortByKeyE_perm hts).mem_iff.mp hm
    have : t ∈ get_unique_players df :=
      mem_players_of_mem_names (teammates_mem_names hm2 htm)
    simp only [writtenPlayerFiles, List.mem_map]
    exact ⟨t, this, rfl⟩
  · intro w hw f hf
    simp only [generate_team_pages, List.mem_filterMap] at hw
    rcases hw with ⟨t, _, hpage⟩
    cases hd : get_team_data df t.team_id t.season with
    | none => simp only [generate_team_page, hd, Option.map_none'] at hpage; cases hpage
    | some d =>
      simp only [generate_team_page, hd, Option.map_some', Option.some.injEq] at hpage
      subst hpage
      simp only [rosterLinks, List.mem_map] at hf
      rcases hf with ⟨p, hp, rfl⟩
      have : p ∈ get_unique_players df :=
        mem_players_of_mem_names (team_data_players_mem_names hd p hp)
      simp only [writtenPlayerFiles, List.mem_map]
      exact ⟨p, this, rfl⟩

/-- C10 witness: in a concrete two-player dataset, the home link for P and
the teammate link for Q (taken from P's generated page) both point at files
the run writes. -/
theorem C10_link_consistency_witness :
    ("P.html" ∈ writtenPlayerFiles (read_all_csvs
      [⟨1, "2020/2021", "T", "P", "t"⟩, ⟨1, "2020/2021", "T", "Q", "t"⟩])) ∧
    ("Q.html" ∈ writtenPlayerFiles (read_all_csvs
      [⟨1, "2020/2021", "T", "P", "t"⟩, ⟨1, "2020/2021", "T", "Q", "t"⟩])) :=
  ⟨(C10_link_consistency _).2.1 "P.html" (by decide),
   (C10_link_consistency _).2.2.1
     [("P.html", ⟨"P", [⟨1, "2020/2021", "T", ["Q"]⟩]⟩),
      ("Q.html", ⟨"Q", [⟨1, "2020/2021", "T", ["P"]⟩]⟩)]
     (by decide)
     ("P.html", ⟨"P", [⟨1, "2020/2021", "T", ["Q"]⟩]⟩) (by decide)
     "Q.html" (by decide)⟩

/-! ### Helper lemmas: the season-normalizer regex -/

theorem takeWhile_all_append {p : Char → Bool} :
    ∀ {l1 : List Char} (l2 : List Char), l1.all p = true →
      (l1 ++ l2).takeWhile p = l1 ++ l2.takeWhile p := by
  intro l1
  induction l1 with
  | nil => intro l2 _; rfl
  | cons x xs ih =>
    intro l2 h
    rcases List.all_eq_true.mp h x (List.mem_cons_self _ _) with hx
    rw [List.cons_append, List.takeWhile_cons_of_pos hx, List.cons_append,
      ih l2 (List.all_eq_true.mpr fun a ha =>
        List.all_eq_true.mp h a (List.mem_cons_of_mem _ ha))]

theorem dropWhile_all_append {p : Char → Bool} :
    ∀ {l1 : List Char} (l2 : List Char), l1.all p = true →
      (l1 ++ l2).dropWhile p = l2.dropWhile p := by
  intro l1
  induction l1 with
  | nil => intro l2 _; rfl
  | cons x xs ih =>
    intro l2 h
    rcases List.all_eq_true.mp h x (List.mem_cons_self _ _) with hx
    rw [List.cons_append, List.dropWhile_cons_of_pos hx,
      ih l2 (List.all_eq_true.mpr fun a ha =>
        List.all_eq_true.mp h a (List.mem_cons_of_mem _ ha))]

theorem all_takeWhile {p : Char → Bool} : ∀ l : List Char, (l.takeWhile p).all p = true := by
  intro l
  induction l with
  | nil => rfl
  | cons x xs ih =>
    by_cases hx : p x = true
    · rw [List.takeWhile_cons_of_pos hx]
      simpa [hx] using ih
    · rw [List.takeWhile_cons_of_neg hx]
      rfl

theorem all_take {p : Char → Bool} {l : List Char} (h : l.all p = true) (n : Nat) :
    (l.take n).all p = true :=
  List.all_eq_true.mpr fun a ha => List.all_eq_true.mp h a (List.mem_of_mem_take ha)

theorem sep_not_digit {c : Char} (h : isSepChar c = true) : isDigitChar c = false := by
  simp only [isSepChar, Bool.or_eq_true, decide_eq_true_eq] at h
  rcases h with ((((((((rfl | rfl) | rfl) | rfl) | rfl) | rfl) | rfl) | rfl) | rfl) <;> rfl

theorem digit_not_sep {c : Char} (h : isDigitChar c = true) : isSepChar c = false := by
  cases hs : isSepChar c
  · rfl
  · rw [sep_not_digit hs] at h
    cases h

theorem matchYearPairAt_some {cs y1 y2 : List Char}
    (h : matchYearPairAt cs = some (y1, y2)) :
    y1 = cs.takeWhile isDigitChar ∧
    2 ≤ y1.length ∧ y1.length ≤ 4 ∧ y1.all isDigitChar = true ∧
    2 ≤ y2.length ∧ y2.length ≤ 4 ∧ y2.all isDigitChar = true := by
  simp only [matchYearPairAt] at h
  split at h
  · rename_i h1
    split at h
    · rename_i h2
      split at h
      · rename_i h3
        have he := Option.some.inj h
        have hy1 : cs.takeWhile isDigitChar = y1 := congrArg Prod.fst he
        have hy2 : (((cs.dropWhile isDigitChar).dropWhile isSepChar).takeWhile
            isDigitChar).take 4 = y2 := congrArg Prod.snd he
        subst hy1
        subst hy2
        refine ⟨rfl, h1.1, h1.2, all_takeWhile _, ?_, ?_, all_take (all_takeWhile _) 4⟩
        · rw [List.length_take]
          exact le_min (by omega) h3
        · rw [List.length_take]
          exact min_le_left _ _
      · cases h
    · cases h
  · cases h

theorem matchYearPairAt_isSome_of_decomp {d1 seps d2 rest : List Char}
    (hd1len2 : 2 ≤ d1.length) (hd1len4 : d1.length ≤ 4) (hd1 : d1.all isDigitChar = true)
    (hseps : seps ≠ []) (hsep : seps.all isSepChar = true)
    (hd2len : 2 ≤ d2.length) (hd2 : d2.all isDigitChar = true) :
    matchYearPairAt (d1 ++ seps ++ d2 ++ rest) ≠ none := by
  cases seps with
  | nil => exact absurd rfl hseps
  | cons s0 seps' =>
    cases d2 with
    | nil => simp at hd2len
    | cons e0 d2a =>
      cases d2a with
      | nil => simp at hd2len
      | cons e1 d2b =>
        rw [List.all_cons, Bool.and_eq_true] at hsep
        rcases hsep with ⟨hs0, hsep'⟩
        rw [List.all_cons, Bool.and_eq_true] at hd2
        rcases hd2 with ⟨he0, hd2'⟩
        rw [List.all_cons, Bool.and_eq_true] at hd2'
        rcases hd2' with ⟨he1, _⟩
        have hs0d : ¬ isDigitChar s0 = true := by rw [sep_not_digit hs0]; exact Bool.false_ne_true
        have he0s : ¬ isSepChar e0 = true := by rw [digit_not_sep he0]; exact Bool.false_ne_true
        have htw : (d1 ++ (s0 :: seps') ++ (e0 :: e1 :: d2b) ++ rest).takeWhile isDigitChar
            = d1 := by
          simp only [List.append_assoc, List.cons_append]
          rw [takeWhile_all_append _ hd1, List.takeWhile_cons_of_neg hs0d, List.append_nil]
        have hdw : (d1 ++ (s0 :: seps') ++ (e0 :: e1 :: d2b) ++ rest).dropWhile isDigitChar
            = s0 :: (seps' ++ (e0 :: e1 :: (d2b ++ rest))) := by
          simp only [List.append_assoc, List.cons_append]
          rw [dropWhile_all_append _ hd1, List.dropWhile_cons_of_neg hs0d]
        have htw2 : (s0 :: (seps' ++ (e0 :: e1 :: (d2b ++ rest)))).takeWhile isSepChar
            = s0 :: seps' := by
          rw [List.takeWhile_cons_of_pos hs0, takeWhile_all_append _ hsep',
            List.takeWhile_cons_of_neg he0s, List.append_nil]
        have hdw2 : (s0 :: (seps' ++ (e0 :: e1 :: (d2b ++ rest)))).dropWhile isSepChar
            = e0 :: e1 :: (d2b ++ rest) := by
          rw [List.dropWhile_cons_of_pos hs0, dropWhile_all_append _ hsep',
            List.dropWhile_cons_of_neg he0s]
        have htw3 : (e0 :: e1 :: (d2b ++ rest)).takeWhile isDigitChar
            = e0 :: e1 :: ((d2b ++ rest).takeWhile isDigitChar) := by
          rw [List.takeWhile_cons_of_pos he0, List.takeWhile_cons_of_pos he1]
        simp only [matchYearPairAt, htw, hdw, htw2, hdw2, htw3]
        rw [if_pos ⟨hd1len2, hd1len4⟩, if_pos (by simp), if_pos (by simp)]
        exact Option.some_ne_none _

theorem decomp_of_matchYearPairAt_some {cs y1 y2 : List Char}
    (h : matchYearPairAt cs = some (y1, y2)) : specContainsYearPair cs := by
  simp only [matchYearPairAt] at h
  split at h
  · rename_i h1
    split at h
    · rename_i h2
      split at h
      · rename_i h3
        refine ⟨[], cs.takeWhile isDigitChar, (cs.dropWhile isDigitChar).takeWhile isSepChar,
          (((cs.dropWhile isDigitChar).dropWhile isSepChar).takeWhile isDigitChar).take 4,
          (((cs.dropWhile isDigitChar).dropWhile isSepChar).takeWhile isDigitChar).drop 4 ++
            ((cs.dropWhile isDigitChar).dropWhile isSepChar).dropWhile isDigitChar,
          ?_, h1.1, h1.2, all_takeWhile _, ?_, all_takeWhile _, ?_, ?_,
          all_take (all_takeWhile _) 4⟩
        · rw [List.nil_append, List.append_assoc, List.append_assoc]
          conv_lhs => rw [← List.takeWhile_append_dropWhile isDigitChar cs]
          congr 1
          conv_lhs => rw [← List.takeWhile_append_dropWhile isSepChar
            (cs.dropWhile isDigitChar)]
          congr 1
          conv_lhs => rw [← List.takeWhile_append_dropWhile isDigitChar
            ((cs.dropWhile isDigitChar).dropWhile isSepChar)]
          rw [← List.append_assoc]
          congr 1
          exact (List.take_append_drop 4 _).symm
        · intro hnil
          rw [hnil] at h2
          simp at h2
        · rw [List.length_take]
          exact le_min (by omega) h3
        · rw [List.length_take]
          exact min_le_left _ _
      · cases h
    · cases h
  · cases h

theorem searchYearPair_cons_some {c : Char} {cs : List Char} {p : List Char × List Char}
    (h : matchYearPairAt (c :: cs) = some p) : searchYearPair (c :: cs) = some p := by
  simp only [searchYearPair, h]

theorem searchYearPair_some {cs : List Char} :
    ∀ {y1 y2 : List Char}, searchYearPair cs = some (y1, y2) →
      2 ≤ y1.length ∧ y1.length ≤ 4 ∧ y1.all isDigitChar = true ∧
      2 ≤ y2.length ∧ y2.length ≤ 4 ∧ y2.all isDigitChar = true := by
  induction cs with
  | nil => intro y1 y2 h; cases h
  | cons c cs ih =>
    intro y1 y2 h
    cases hm : matchYearPairAt (c :: cs) with
    | some p =>
      simp only [searchYearPair, hm, Option.some.injEq] at h
      subst h
      rcases matchYearPairAt_some hm with ⟨_, h2, h3, h4, h5, h6, h7⟩
      exact ⟨h2, h3, h4, h5, h6, h7⟩
    | none =>
      simp only [searchYearPair, hm] at h
      exact ih h

theorem searchYearPair_none_iff : ∀ cs : List Char,
    searchYearPair cs = none ↔ ¬ specContainsYearPair cs := by
  intro cs
  induction cs with
  | nil =>
    constructor
    · rintro _ ⟨pre, d1, seps, d2, rest, heq, h12, _⟩
      have hlen := congrArg List.length heq
      simp only [List.length_nil, List.length_append] at hlen
      omega
    · intro _
      rfl
  | cons c cs ih =>
    cases hm : matchYearPairAt (c :: cs) with
    | some p =>
      constructor
      · intro h
        simp only [searchYearPair, hm] at h
        cases h
      · intro hn
        exfalso
        obtain ⟨y1, y2⟩ := p
        exact hn (decomp_of_matchYearPairAt_some hm)
    | none =>
      have heq : searchYearPair (c :: cs) = searchYearPair cs := by
        simp only [searchYearPair, hm]
      rw [heq, ih]
      constructor
      · rintro hnc ⟨pre, d1, seps, d2, rest, heq2, h12, h14, h1d, hne, hsd, h22, h24, h2d⟩
        cases pre with
        | nil =>
          rw [List.nil_append] at heq2
          rw [heq2] at hm
          exact matchYearPairAt_isSome_of_decomp h12 h14 h1d hne hsd h22 h2d hm
        | cons c0 pre' =>
          simp only [List.cons_append, List.cons.injEq] at heq2
          exact hnc ⟨pre', d1, seps, d2, rest, heq2.2, h12, h14, h1d, hne, hsd, h22, h24, h2d⟩
      · rintro hnc ⟨pre, d1, seps, d2, rest, heq2, h12, h14, h1d, hne, hsd, h22, h24, h2d⟩
        refine hnc ⟨c :: pre, d1, seps, d2, rest, ?_, h12, h14, h1d, hne, hsd, h22, h24, h2d⟩
        simp only [List.cons_append, List.cons.injEq]
        exact ⟨trivial, heq2⟩

theorem expandYear_props {y : List Char} (h2 : 2 ≤ y.length) (h4 : y.length ≤ 4)
    (hd : y.all isDigitChar = true) :
    (expandYear y).all isDigitChar = true ∧ 2 ≤ (expandYear y).length ∧
      (expandYear y).length ≤ 4 ∧ (expandYear y).length ≠ 2 := by
  unfold expandYear
  by_cases hl : y.length = 2
  · rw [if_pos hl]
    by_cases hv : digitsToNat y < 50
    · rw [if_pos hv]
      refine ⟨?_, by simp, by simp [hl], by simp [hl]⟩
      simp only [List.all_cons, Bool.and_eq_true]
      exact ⟨rfl, rfl, hd⟩
    · rw [if_neg hv]
      refine ⟨?_, by simp, by simp [hl], by simp [hl]⟩
      simp only [List.all_cons, Bool.and_eq_true]
      exact ⟨rfl, rfl, hd⟩
  · rw [if_neg hl]
    exact ⟨hd, h2, h4, hl⟩

theorem expandYear_eq_self {y : List Char} (h : y.length ≠ 2) : expandYear y = y :=
  if_neg h

theorem string_mk_data (l : List Char) : (String.mk l).data = l :=
  rfl

theorem searchYearPair_canonical {e1 e2 : List Char}
    (h1d : e1.all isDigitChar = true) (h12 : 2 ≤ e1.length) (h14 : e1.length ≤ 4)
    (h2d : e2.all isDigitChar = true) (h22 : 2 ≤ e2.length) (h24 : e2.length ≤ 4) :
    searchYearPair (e1 ++ '/' :: e2) = some (e1, e2) := by
  cases e1 with
  | nil => simp at h12
  | cons c1 e1' =>
    cases e2 with
    | nil => simp at h22
    | cons d0 e2' =>
      rw [List.all_cons, Bool.and_eq_true] at h2d
      rcases h2d with ⟨hd0, hd2'⟩
      have hslash : ¬ isDigitChar '/' = true := by decide
      have hd0s : ¬ isSepChar d0 = true := by
        rw [digit_not_sep hd0]
        exact Bool.false_ne_true
      have htw : ((c1 :: e1') ++ '/' :: d0 :: e2').takeWhile isDigitChar = c1 :: e1' := by
        rw [takeWhile_all_append _ h1d, List.takeWhile_cons_of_neg hslash, List.append_nil]
      have hdw : ((c1 :: e1') ++ '/' :: d0 :: e2').dropWhile isDigitChar = '/' :: d0 :: e2' := by
        rw [dropWhile_all_append _ h1d, List.dropWhile_cons_of_neg hslash]
      have htw2 : ('/' :: d0 :: e2').takeWhile isSepChar = ['/'] := by
        rw [List.takeWhile_cons_of_pos (by decide), List.takeWhile_cons_of_neg hd0s]
      have hdw2 : ('/' :: d0 :: e2').dropWhile isSepChar = d0 :: e2' := by
        rw [List.dropWhile_cons_of_pos (by decide), List.dropWhile_cons_of_neg hd0s]
      have htw3 : (d0 :: e2').takeWhile isDigitChar = d0 :: e2' := by
        refine List.takeWhile_eq_self_iff.mpr ?_
        intro x hx
        rcases List.mem_cons.mp hx with rfl | hx
        · exact hd0
        · exact List.all_eq_true.mp hd2' x hx
      rw [List.cons_append]
      apply searchYearPair_cons_some
      rw [← List.cons_append]
      have hmatch : matchYearPairAt ((c1 :: e1') ++ '/' :: d0 :: e2') =
          some (c1 :: e1', (d0 :: e2').take 4) := by
        simp only [matchYearPairAt, htw, hdw, htw2, hdw2, htw3]
        rw [if_pos ⟨h12, h14⟩, if_pos (by simp), if_pos h22]
      rw [hmatch, List.take_of_length_le h24]

/-- C8: `normalize_season` is idempotent on every string.  A non-matching
input passes through unchanged, and a matching input is rewritten to exactly
`"{y1}/{y2}"` with both components digit strings of length 3 or 4 — a string
on which the regex matches again at position 0 capturing the same two
components, which the pivot rule then leaves untouched. -/
theorem C8_normalize_idempotent (s : String) :
    normalize_season (normalize_season s) = normalize_season s := by
  cases h : searchYearPair s.data with
  | none => simp [normalize_season, h]
  | some p =>
    obtain ⟨y1, y2⟩ := p
    rcases searchYearPair_some h with ⟨h12, h14, h1d, h22, h24, h2d⟩
    rcases expandYear_props h12 h14 h1d with ⟨e1d, e12, e14, e1ne⟩
    rcases expandYear_props h22 h24 h2d with ⟨e2d, e22, e24, e2ne⟩
    have hn : normalize_season s = String.mk (expandYear y1 ++ '/' :: expandYear y2) := by
      simp [normalize_season, h]
    rw [hn]
    have hcanon : searchYearPair (expandYear y1 ++ '/' :: expandYear y2) =
        some (expandYear y1, expandYear y2) :=
      searchYearPair_canonical e1d e12 e14 e2d e22 e24
    simp only [normalize_season, string_mk_data, hcanon]
    rw [expandYear_eq_self e1ne, expandYear_eq_self e2ne]

/-- C7: behaviour of the season normalizer.  It is a total Lean function; the
four documented examples hold; an input with no two separated 2–4-digit
numeric tokens (in the regex's substring sense, `specContainsYearPair`) is
returned unchanged; and an input containing such a pair is rewritten to
`"{y1}/{y2}"` where the captured groups are 2–4-digit strings and
`expandYear` applies the pivot-50 rule to the 2-digit ones. -/
theorem C7_normalizer_spec :
    (normalize_season "23/24" = "2023/2024" ∧
     normalize_season "99/00" = "1999/2000" ∧
     normalize_season "2025/2026 SEASON" = "2025/2026" ∧
     normalize_season "Fall League" = "Fall League") ∧
    (∀ s : String, ¬ specContainsYearPair s.data → normalize_season s = s) ∧
    (∀ s : String, specContainsYearPair s.data →
      ∃ y1 y2 : List Char, searchYearPair s.data = some (y1, y2) ∧
        2 ≤ y1.length ∧ y1.length ≤ 4 ∧ y1.all isDigitChar = true ∧
        2 ≤ y2.length ∧ y2.length ≤ 4 ∧ y2.all isDigitChar = true ∧
        normalize_season s = String.mk (expandYear y1 ++ '/' :: expandYear y2)) := by
  refine ⟨⟨by decide, by decide, by decide, by decide⟩, ?_, ?_⟩
  · intro s hs
    have hnone : searchYearPair s.data = none := (searchYearPair_none_iff s.data).mpr hs
    simp [normalize_season, hnone]
  · intro s hs
    cases h : searchYearPair s.data with
    | none => exact absurd hs ((searchYearPair_none_iff s.data).mp h)
    | some p =>
      obtain ⟨y1, y2⟩ := p
      rcases searchYearPair_some h with ⟨h12, h14, h1d, h22, h24, h2d⟩
      exact ⟨y1, y2, rfl, h12, h14, h1d, h22, h24, h2d, by simp [normalize_season, h]⟩

/-- C7 witness: the no-match branch applied to "Fall League" (which contains
no year pair) and the match branch applied to "23/24" (which contains one). -/
theorem C7_normalizer_spec_witness :
    normalize_season "Fall League" = "Fall League" ∧
    (∃ y1 y2 : List Char, searchYearPair ("23/24" : String).data = some (y1, y2) ∧
      2 ≤ y1.length ∧ y1.length ≤ 4 ∧ y1.all isDigitChar = true ∧
      2 ≤ y2.length ∧ y2.length ≤ 4 ∧ y2.all isDigitChar = true ∧
      normalize_season "23/24" = String.mk (expandYear y1 ++ '/' :: expandYear y2)) :=
  ⟨C7_normalizer_spec.2.1 "Fall League"
     ((searchYearPair_none_iff ("Fall League" : String).data).mp (by decide)),
   C7_normalizer_spec.2.2 "23/24"
     (decomp_of_matchYearPairAt_some
       (show matchYearPairAt ("23/24" : String).data = some (['2', '3'], ['2', '4'])
        by decide))⟩

end Arlington
